import Mathlib

/-!
# envoy-operator: the Deployment built for an `Envoy` resource

A shallow embedding of `pkg/envoy/envoy.go` and of
`pkg/apis/envoy/v1alpha1/zz_generated.deepcopy.go`.

* Go structs become Lean structures with the same field names; a pointer field
  that may be nil is an `Option`, a slice is a `List` (the nil slice is `[]`),
  a `map[string]string` is an association list read with `List.lookup`.
* The generated deep copies allocate and write through pointers; they are embedded over an
  explicit memory (`Mem.Heap`), with addresses, slice headers and an allocation frontier.
* The packages the code calls and that are not part of these two files
  (`downward`, `action`, `apierrors`, and three constants of `api`) are the
  fields of `Deps`, a parameter of every function that uses them.
* `action.Create` is recorded: `deployEnvoy` returns its Go result together with
  the list of objects it handed to `action.Create`, in call order.
-/

set_option linter.dupNamespace false

namespace EnvoyOperator

/-! ## `path/filepath` (Unix) -/

namespace filepath

/-- The Unix path separator test `os.IsPathSeparator`. -/
def IsPathSeparator (c : Char) : Bool := c == '/'

/-- The inner loop of the `..` case of `Clean`: starting from index `w` (already
decremented once), move left while `w > dotdot` and `out[w]` is not a separator. -/
def backtrack (out : List Char) (dotdot : Nat) : Nat → Nat
  | 0 => 0
  | w + 1 =>
    if w + 1 > dotdot && !IsPathSeparator (out.getD (w + 1) '/') then backtrack out dotdot w
    else w + 1

/-- The main loop of `Clean`. `rest` is `path[r:]`, `out` the bytes written so far
(`out.length` is `w`), `dotdot` the index where `..` must stop. Each round consumes at
least one byte of `rest`, so `rest.length` rounds of fuel are enough. -/
def cleanLoop (rooted : Bool) : Nat → List Char → List Char → Nat → List Char
  | 0, _, out, _ => out
  | _ + 1, [], out, _ => out
  | fuel + 1, c :: rest, out, dotdot =>
    if IsPathSeparator c then
      -- empty path element
      cleanLoop rooted fuel rest out dotdot
    else if c == '.' && (rest.isEmpty || IsPathSeparator (rest.headD '/')) then
      -- . element
      cleanLoop rooted fuel rest out dotdot
    else if c == '.' && rest.headD 'x' == '.' &&
        (rest.tail.isEmpty || IsPathSeparator (rest.tail.headD '/')) then
      -- .. element: remove to last separator
      if out.length > dotdot then
        cleanLoop rooted fuel rest.tail (out.take (backtrack out dotdot (out.length - 1))) dotdot
      else if !rooted then
        let out1 := if out.length > 0 then out ++ ['/'] else out
        let out2 := out1 ++ ['.', '.']
        cleanLoop rooted fuel rest.tail out2 out2.length
      else
        cleanLoop rooted fuel rest.tail out dotdot
    else
      -- real path element: add slash if needed, then copy the element
      let out1 :=
        if (rooted && out.length != 1) || (!rooted && out.length != 0) then out ++ ['/'] else out
      let elem := (c :: rest).takeWhile (fun x => !IsPathSeparator x)
      cleanLoop rooted fuel ((c :: rest).dropWhile (fun x => !IsPathSeparator x)) (out1 ++ elem)
        dotdot

/-- The function `filepath.Clean` on the bytes of a path (no volume name on Unix). -/
def cleanChars (path : List Char) : List Char :=
  match path with
  | [] => ['.']
  | c :: _ =>
    let rooted := IsPathSeparator c
    let out :=
      if rooted then cleanLoop rooted path.length path.tail ['/'] 1
      else cleanLoop rooted path.length path [] 0
    if out.length == 0 then ['.'] else out

/-- The function `filepath.Clean`. -/
def Clean (path : String) : String := String.mk (cleanChars path.data)

/-- The function `filepath.Dir`: drop the last element of the path (everything after the
final separator), then `Clean` what is left. -/
def Dir (path : String) : String :=
  String.mk (cleanChars (path.data.reverse.dropWhile (fun x => !IsPathSeparator x)).reverse)

end filepath

/-! ## Kubernetes API objects (the fields the operator sets) -/

/-- The struct `metav1.TypeMeta`. -/
structure TypeMeta where
  Kind : String
  APIVersion : String
  deriving DecidableEq, Repr, Inhabited

/-- The struct `metav1.OwnerReference`. -/
structure OwnerReference where
  APIVersion : String
  Kind : String
  Name : String
  UID : String
  Controller : Option Bool
  deriving DecidableEq, Repr, Inhabited

/-- The struct `metav1.ObjectMeta`. -/
structure ObjectMeta where
  Name : String
  Namespace : String
  UID : String
  Labels : List (String × String)
  OwnerReferences : List OwnerReference
  deriving DecidableEq, Repr, Inhabited

/-- The struct `metav1.ListMeta`. -/
structure ListMeta where
  SelfLink : String
  ResourceVersion : String
  Continue : String
  deriving DecidableEq, Repr, Inhabited

/-- The struct `v1.ObjectFieldSelector`. -/
structure ObjectFieldSelector where
  FieldPath : String
  deriving DecidableEq, Repr, Inhabited

/-- The struct `v1.EnvVarSource`. -/
structure EnvVarSource where
  FieldRef : Option ObjectFieldSelector
  deriving DecidableEq, Repr, Inhabited

/-- The struct `v1.EnvVar`. -/
structure EnvVar where
  Name : String
  ValueFrom : Option EnvVarSource
  deriving DecidableEq, Repr, Inhabited

/-- The struct `v1.DownwardAPIVolumeFile`. -/
structure DownwardAPIVolumeFile where
  Path : String
  FieldRef : Option ObjectFieldSelector
  deriving DecidableEq, Repr, Inhabited

/-- The struct `v1.DownwardAPIVolumeSource`. -/
structure DownwardAPIVolumeSource where
  Items : List DownwardAPIVolumeFile
  deriving DecidableEq, Repr, Inhabited

/-- The struct `v1.LocalObjectReference`. -/
structure LocalObjectReference where
  Name : String
  deriving DecidableEq, Repr, Inhabited

/-- The struct `v1.ConfigMapVolumeSource`. -/
structure ConfigMapVolumeSource where
  LocalObjectReference : LocalObjectReference
  deriving DecidableEq, Repr, Inhabited

/-- The struct `v1.EmptyDirVolumeSource` (no field is set). -/
structure EmptyDirVolumeSource where
  deriving DecidableEq, Repr, Inhabited

/-- The struct `v1.SecretVolumeSource`. -/
structure SecretVolumeSource where
  SecretName : String
  deriving DecidableEq, Repr, Inhabited

/-- The struct `v1.VolumeSource`: one pointer per kind of volume. -/
structure VolumeSource where
  ConfigMap : Option ConfigMapVolumeSource := none
  EmptyDir : Option EmptyDirVolumeSource := none
  Secret : Option SecretVolumeSource := none
  DownwardAPI : Option DownwardAPIVolumeSource := none
  deriving DecidableEq, Repr, Inhabited

/-- The struct `v1.Volume`. -/
structure Volume where
  Name : String
  VolumeSource : VolumeSource
  deriving DecidableEq, Repr, Inhabited

/-- The struct `v1.VolumeMount`. -/
structure VolumeMount where
  Name : String
  MountPath : String
  deriving DecidableEq, Repr, Inhabited

/-- The struct `v1.ContainerPort`. -/
structure ContainerPort where
  ContainerPort : Int
  Name : String
  deriving DecidableEq, Repr, Inhabited

/-- The struct `v1.Container`. -/
structure Container where
  Name : String
  Image : String
  Command : List String := []
  Args : List String
  Env : List EnvVar := []
  VolumeMounts : List VolumeMount
  Ports : List ContainerPort := []
  deriving DecidableEq, Repr, Inhabited

/-- The struct `v1.PodSpec`. -/
structure PodSpec where
  InitContainers : List Container
  Containers : List Container
  Volumes : List Volume
  deriving DecidableEq, Repr, Inhabited

/-- The struct `v1.PodTemplateSpec`. -/
structure PodTemplateSpec where
  ObjectMeta : ObjectMeta
  Spec : PodSpec
  deriving DecidableEq, Repr, Inhabited

/-- The struct `metav1.LabelSelector`. -/
structure LabelSelector where
  MatchLabels : List (String × String)
  deriving DecidableEq, Repr, Inhabited

/-- The struct `appsv1.RollingUpdateDeployment`, with `intstr.FromInt` values. -/
structure RollingUpdateDeployment where
  MaxUnavailable : Option Int
  MaxSurge : Option Int
  deriving DecidableEq, Repr, Inhabited

/-- The struct `appsv1.DeploymentStrategy`; `StrategyType` is its field `Type`. -/
structure DeploymentStrategy where
  StrategyType : String
  RollingUpdate : Option RollingUpdateDeployment
  deriving DecidableEq, Repr, Inhabited

/-- The struct `appsv1.DeploymentSpec`. -/
structure DeploymentSpec where
  Replicas : Option Int
  Selector : Option LabelSelector
  Template : PodTemplateSpec
  Strategy : DeploymentStrategy
  deriving DecidableEq, Repr, Inhabited

/-- The struct `appsv1.Deployment`. -/
structure Deployment where
  TypeMeta : TypeMeta
  ObjectMeta : ObjectMeta
  Spec : DeploymentSpec
  deriving DecidableEq, Repr, Inhabited

/-! ## The `Envoy` custom resource (`api`) -/

/-- The field `EnvoySpec.Deployment`, of which the operator reads `Replicas`. -/
structure EnvoyDeploymentSpec where
  Replicas : Int
  deriving DecidableEq, Repr, Inhabited

/-- The struct `api.EnvoySpec`: the fields `envoy.go` reads. -/
structure EnvoySpec where
  NodeIdTemplate : String
  ClusterIdTemplate : String
  TLSSecretName : String
  AdminPort : Int
  Image : String
  ImageCommand : List String
  Deployment : EnvoyDeploymentSpec
  deriving DecidableEq, Repr, Inhabited

/-- The struct `api.Envoy`. Its `Status` is never read by the operator and is copied as a
whole by the generated deep copy, so the status type is a parameter. -/
structure Envoy (Status : Type) where
  TypeMeta : TypeMeta
  ObjectMeta : ObjectMeta
  Spec : EnvoySpec
  Status : Status
  deriving DecidableEq, Repr, Inhabited

/-! ## What the operator imports from outside these two files -/

/-- Modelled from the spec: the flag record that `downward.TestNeededDownwardAPI()` returns
and `InterpolateString` fills in; package `downward` is not among the sources. One flag per
downward-API field a template can reference. Eight of them are read by `initDownward` under
these names; `IsPodUID` is the flag of the pod UID, which `initDownward` never reads. -/
structure NeededDownwardAPI where
  IsPodName : Bool
  IsPodNamespace : Bool
  IsPodIp : Bool
  IsPodSvcAccount : Bool
  IsPodUID : Bool
  IsNodeName : Bool
  IsNodeIp : Bool
  IsPodLabels : Bool
  IsPodAnnotations : Bool
  deriving DecidableEq, Repr, Inhabited

/-- The imported names of `envoy.go` that are defined outside the two source files, over an
error type `ε`.
* `TestNeededDownwardAPI`: the fresh flag record of `downward.TestNeededDownwardAPI()`;
* `InterpolateString tmpl flags`: `interpolate.InterpolateString(tmpl, whatsNeeded)`, which
  returns the interpolated string or an error and records the referenced fields in the flag
  record it was given (returned here as the second component);
* `Create`: `action.Create`, `none` being a nil error;
* `IsAlreadyExists`: `apierrors.IsAlreadyExists` on a non-nil error;
* the constants `api.EnvoyTLSVolPath`, `api.SchemeGroupVersion.String()` and
  `api.EnvoyServiceKind`. -/
structure Deps (ε : Type) where
  TestNeededDownwardAPI : NeededDownwardAPI
  InterpolateString : String → NeededDownwardAPI → Except ε (String × NeededDownwardAPI)
  Create : Deployment → Option ε
  IsAlreadyExists : ε → Bool
  EnvoyTLSVolPath : String
  SchemeGroupVersion : String
  EnvoyServiceKind : String

/-! ## `pkg/envoy/envoy.go` -/

def initContainerImage : String := "soloio/envoy-operator-init:0.1"

def downwardVolName : String := "downward-api-volume"
def downwardVolPath : String := "/etc/podinfo/"

def envoyConfigVolName : String := "envoy-config"
def envoyConfigPath : String := "/etc/tmp-envoy/"

def envoyConfigTmpVolName : String := "envoy-tmp-config"
def envoyConfigTmpPath : String := "/etc/envoy/"

def envoyConfigFilePath : String := "/etc/envoy/envoy.json"
def envoySourceConfigFilePath : String := "/etc/tmp-envoy/envoy.json"

def envoyTLSVolName : String := "tls-certs"

/-- The Go conversion `int32(x)` of an integer: wrap into `[-2^31, 2^31)`. -/
def toInt32 (x : Int) : Int := (x + 2 ^ 31) % 2 ^ 32 - 2 ^ 31

variable {ε Status : Type}

/-- The method `GetName` of the embedded `ObjectMeta`. -/
def Envoy.GetName (e : Envoy Status) : String := e.ObjectMeta.Name

/-- The method `GetNamespace` of the embedded `ObjectMeta`. -/
def Envoy.GetNamespace (e : Envoy Status) : String := e.ObjectMeta.Namespace

def labelsForEnvoy (e : Envoy Status) : List (String × String) :=
  [("app", "envoy"), ("envoy_cluster", e.ObjectMeta.Name)]

def addEnv (name ref : String) : EnvVar :=
  { Name := name
    ValueFrom := some { FieldRef := some { FieldPath := ref } } }

def addVolumes (isPodLabels isPodAnnotations : Bool) : Volume :=
  let items : List DownwardAPIVolumeFile := []
  let items :=
    if isPodLabels then
      items ++ [{ Path := "labels", FieldRef := some { FieldPath := "metadata.labels" } }]
    else items
  let items :=
    if isPodAnnotations then
      items ++ [{ Path := "annotations", FieldRef := some { FieldPath := "metadata.annotations" } }]
    else items
  { Name := downwardVolName
    VolumeSource := { DownwardAPI := some { Items := items } } }

def initDownward (deps : Deps ε) (e : Envoy Status) : Except ε (List Volume × List EnvVar) :=
  let whatsNeeded := deps.TestNeededDownwardAPI
  match deps.InterpolateString e.Spec.NodeIdTemplate whatsNeeded with
  | .error err => .error err
  | .ok (_, whatsNeeded) =>
    match deps.InterpolateString e.Spec.ClusterIdTemplate whatsNeeded with
    | .error err => .error err
    | .ok (_, whatsNeeded) =>
      let volumes : List Volume := []
      let downwardVolNeeded := whatsNeeded.IsPodAnnotations || whatsNeeded.IsPodLabels
      let volumes :=
        if downwardVolNeeded then
          volumes ++ [addVolumes whatsNeeded.IsPodLabels whatsNeeded.IsPodAnnotations]
        else volumes
      let env : List EnvVar := []
      let env := if whatsNeeded.IsPodName then env ++ [addEnv "POD_NAME" "metadata.name"] else env
      let env :=
        if whatsNeeded.IsPodNamespace then env ++ [addEnv "POD_NAMESPACE" "metadata.namespace"]
        else env
      let env := if whatsNeeded.IsPodIp then env ++ [addEnv "POD_IP" "status.podIp"] else env
      let env :=
        if whatsNeeded.IsPodSvcAccount then env ++ [addEnv "POD_SVCACCNT" "spec.serviceAccountName"]
        else env
      let env :=
        if whatsNeeded.IsPodNamespace then env ++ [addEnv "POD_UID" "metadata.uid"] else env
      let env := if whatsNeeded.IsNodeName then env ++ [addEnv "NODE_NAME" "spec.nodeName"] else env
      let env := if whatsNeeded.IsNodeIp then env ++ [addEnv "NODE_IP" "status.hostIP"] else env
      .ok (volumes, env)

def configMapNameForEnvoy (e : Envoy Status) : String := e.ObjectMeta.Name

/-- The function `addOwnerRefToObject`, returning the updated object. -/
def addOwnerRefToObject (o : Deployment) (r : OwnerReference) : Deployment :=
  { o with ObjectMeta := { o.ObjectMeta with OwnerReferences := o.ObjectMeta.OwnerReferences ++ [r] } }

def asOwner (deps : Deps ε) (e : ObjectMeta) : OwnerReference :=
  let trueVar := true
  { APIVersion := deps.SchemeGroupVersion
    Kind := deps.EnvoyServiceKind
    Name := e.Name
    UID := e.UID
    Controller := some trueVar }

def envoyContainer (deps : Deps ε) (e : Envoy Status) : Container :=
  let vmounts : List VolumeMount :=
    [{ Name := envoyConfigTmpVolName, MountPath := filepath.Dir envoyConfigTmpPath }]
  let ports : List ContainerPort := []
  let ports :=
    if e.Spec.AdminPort ≠ 0 then ports ++ [{ ContainerPort := e.Spec.AdminPort, Name := "admin" }]
    else ports
  let vmounts :=
    if e.Spec.TLSSecretName ≠ "" then
      vmounts ++ [{ Name := envoyTLSVolName, MountPath := filepath.Dir deps.EnvoyTLSVolPath }]
    else vmounts
  { Name := "envoy"
    Image := e.Spec.Image
    Command := e.Spec.ImageCommand
    Args := ["-c", envoyConfigFilePath, "--v2-config-only"]
    VolumeMounts := vmounts
    Ports := ports }

def configInitContainer (_v : Envoy Status) (env : List EnvVar) (_volumes : List Volume)
    (downwardvol : Bool) : Container :=
  let vmounts : List VolumeMount :=
    [{ Name := envoyConfigVolName, MountPath := filepath.Dir envoyConfigPath },
     { Name := envoyConfigTmpVolName, MountPath := filepath.Dir envoyConfigTmpPath }]
  let vmounts :=
    if downwardvol then
      vmounts ++ [{ Name := downwardVolName, MountPath := filepath.Dir downwardVolPath }]
    else vmounts
  { Name := "envoy-init"
    Image := initContainerImage
    Args := ["-input", envoySourceConfigFilePath, "-output", envoyConfigFilePath]
    Env := env
    VolumeMounts := vmounts }

/-- What a run of `deployEnvoy` does: the error it returns (`none` is nil) and the objects it
passed to `action.Create`, in call order. -/
structure Outcome (ε : Type) where
  err : Option ε
  created : List Deployment

def deployEnvoy (deps : Deps ε) (e : Envoy Status) : Outcome ε :=
  let volumes : List Volume :=
    [{ Name := envoyConfigVolName
       VolumeSource := { ConfigMap := some { LocalObjectReference := { Name := configMapNameForEnvoy e } } } },
     { Name := envoyConfigTmpVolName
       VolumeSource := { EmptyDir := some {} } }]
  let volumes :=
    if e.Spec.TLSSecretName ≠ "" then
      volumes ++ [{ Name := envoyTLSVolName
                    VolumeSource := { Secret := some { SecretName := e.Spec.TLSSecretName } } }]
    else volumes
  match initDownward deps e with
  | .error err => { err := some err, created := [] }
  | .ok (downvols, env) =>
    let volumes := volumes ++ downvols
    let downwardVolNeeded := downvols.length != 0
    let selector := labelsForEnvoy e
    let podTempl : PodTemplateSpec :=
      { ObjectMeta := { Name := e.GetName, Namespace := e.GetNamespace, UID := "", Labels := selector,
                        OwnerReferences := [] }
        Spec := { InitContainers := [configInitContainer e env volumes downwardVolNeeded]
                  Containers := [envoyContainer deps e]
                  Volumes := volumes } }
    let reps := toInt32 e.Spec.Deployment.Replicas
    let d : Deployment :=
      { TypeMeta := { Kind := "Deployment", APIVersion := "apps/v1" }
        ObjectMeta := { Name := e.GetName, Namespace := e.GetNamespace, UID := "", Labels := selector,
                        OwnerReferences := [] }
        Spec := { Replicas := some reps
                  Selector := some { MatchLabels := selector }
                  Template := podTempl
                  Strategy := { StrategyType := "RollingUpdate"
                                RollingUpdate := some { MaxUnavailable := some 1, MaxSurge := some 1 } } } }
    let d := addOwnerRefToObject d (asOwner deps e.ObjectMeta)
    match deps.Create d with
    | some err =>
      if !deps.IsAlreadyExists err then { err := some err, created := [d] }
      else { err := none, created := [d] }
    | none => { err := none, created := [d] }

/-! ## `pkg/apis/envoy/v1alpha1/zz_generated.deepcopy.go`

The generated methods work through pointers, so they are embedded over an explicit memory.
An address is a natural number; `Heap.next` is the first address that has never been
allocated, and `new(T)` and `make` take that address and move `next` up by one. A pointer that
may be nil is an `Option`. A slice is its header `Slice`: the data pointer (the address of the
backing array and the offset of the first element; `none` for the nil slice), `len` and `cap`.
A `*Envoy` is the address of an array and an index into it (the object of `new(Envoy)` is an
array of one element), since the loop of `EnvoyList.DeepCopyInto` takes the address of slice
elements. The method `ObjectMeta.DeepCopyInto` of Kubernetes is the parameter `metaCopy`, from
the receiver to the value it writes. -/

/-- The type of the parameter standing for `ObjectMeta.DeepCopyInto`. -/
abbrev MetaCopy : Type := ObjectMeta → ObjectMeta

namespace Mem

/-- A Go slice header. -/
structure Slice where
  data : Option (Nat × Nat)
  len : Nat
  cap : Nat
  deriving DecidableEq, Repr, Inhabited

/-- The struct `EnvoySpec` as it lies in memory: the fields of `EnvoyOperator.EnvoySpec`, with
the slice `ImageCommand` as a slice header. -/
structure EnvoySpec where
  NodeIdTemplate : String
  ClusterIdTemplate : String
  TLSSecretName : String
  AdminPort : Int
  Image : String
  ImageCommand : Slice
  Deployment : EnvoyDeploymentSpec
  deriving DecidableEq, Repr, Inhabited

/-- The struct `Envoy` as it lies in memory. -/
structure Envoy (Status : Type) where
  TypeMeta : TypeMeta
  ObjectMeta : ObjectMeta
  Spec : EnvoySpec
  Status : Status
  deriving DecidableEq, Repr, Inhabited

/-- The struct `EnvoyList` as it lies in memory; `Items` is the header of a `[]Envoy`. -/
structure EnvoyList where
  TypeMeta : TypeMeta
  ListMeta : ListMeta
  Items : Slice
  deriving DecidableEq, Repr, Inhabited

/-- The memory: the backing arrays of `[]string` and `[]Envoy` slices and the objects of type
`EnvoySpec`, `EnvoyStatus` and `EnvoyList`, each by address, and the allocation frontier. -/
structure Heap (Status : Type) where
  strings : Nat → List String
  envoys : Nat → List (Envoy Status)
  specs : Nat → EnvoySpec
  statuses : Nat → Status
  lists : Nat → EnvoyList
  next : Nat

/-- The map `f` with the value at address `a` replaced by `v`. -/
def upd {α : Type} (f : Nat → α) (a : Nat) (v : α) : Nat → α :=
  fun x => if x = a then v else f x

variable [Inhabited Status]

/-- Read through a `*Envoy`. -/
def Heap.loadEnvoy (h : Heap Status) (p : Nat × Nat) : Envoy Status :=
  (h.envoys p.1).getD p.2 default

/-- Write through a `*Envoy`. -/
def Heap.storeEnvoy (h : Heap Status) (p : Nat × Nat) (v : Envoy Status) : Heap Status :=
  { h with envoys := upd h.envoys p.1 ((h.envoys p.1).set p.2 v) }

/-- The elements of a `[]Envoy`, read from memory; `none` for the nil slice. -/
def Heap.loadItems (h : Heap Status) (s : Slice) : Option (List (Envoy Status)) :=
  s.data.map (fun d => (List.range s.len).map (fun i => h.loadEnvoy (d.1, d.2 + i)))

/-- The elements of a `[]string`, read from memory; `none` for the nil slice. -/
def Heap.loadStrings (h : Heap Status) (s : Slice) : Option (List String) :=
  s.data.map (fun d => (List.range s.len).map (fun i => (h.strings d.1).getD (d.2 + i) ""))

/-- The assignment `s[i] = v` on a `[]string`. -/
def Heap.storeString (h : Heap Status) (s : Slice) (i : Nat) (v : String) : Heap Status :=
  match s.data with
  | some d => { h with strings := upd h.strings d.1 ((h.strings d.1).set (d.2 + i) v) }
  | none => h

def Envoy.DeepCopyInto (metaCopy : MetaCopy) (h : Heap Status) (in_ out : Nat × Nat) :
    Heap Status :=
  let h := h.storeEnvoy out (h.loadEnvoy in_)
  let h := h.storeEnvoy out { h.loadEnvoy out with TypeMeta := (h.loadEnvoy in_).TypeMeta }
  let h := h.storeEnvoy out
    { h.loadEnvoy out with ObjectMeta := metaCopy (h.loadEnvoy in_).ObjectMeta }
  let h := h.storeEnvoy out { h.loadEnvoy out with Spec := (h.loadEnvoy in_).Spec }
  let h := h.storeEnvoy out { h.loadEnvoy out with Status := (h.loadEnvoy in_).Status }
  h

def Envoy.DeepCopy (metaCopy : MetaCopy) (h : Heap Status) :
    Option (Nat × Nat) → Option (Nat × Nat) × Heap Status
  | none => (none, h)
  | some in_ =>
    let out := (h.next, 0)
    let h := { h with envoys := upd h.envoys h.next [default], next := h.next + 1 }
    let h := Envoy.DeepCopyInto metaCopy h in_ out
    (some out, h)

def EnvoyList.DeepCopyInto (metaCopy : MetaCopy) (h : Heap Status) (in_ out : Nat) :
    Heap Status :=
  let h := { h with lists := upd h.lists out (h.lists in_) }
  let h :=
    { h with lists := upd h.lists out { h.lists out with TypeMeta := (h.lists in_).TypeMeta } }
  let h :=
    { h with lists := upd h.lists out { h.lists out with ListMeta := (h.lists in_).ListMeta } }
  if (h.lists in_).Items.data.isSome then
    let n := (h.lists in_).Items.len
    let arr := h.next
    let h := { h with envoys := upd h.envoys arr (List.replicate n default), next := h.next + 1 }
    let items : Slice := { data := some (arr, 0), len := n, cap := n }
    let h := { h with lists := upd h.lists out { h.lists out with Items := items } }
    (List.range (h.lists in_).Items.len).foldl
      (fun h i =>
        match (h.lists in_).Items.data, (h.lists out).Items.data with
        | some s, some d => Envoy.DeepCopyInto metaCopy h (s.1, s.2 + i) (d.1, d.2 + i)
        | _, _ => h) h
  else h

def EnvoyList.DeepCopy (metaCopy : MetaCopy) (h : Heap Status) :
    Option Nat → Option Nat × Heap Status
  | none => (none, h)
  | some in_ =>
    let out := h.next
    let h := { h with lists := upd h.lists out default, next := h.next + 1 }
    let h := EnvoyList.DeepCopyInto metaCopy h in_ out
    (some out, h)

def EnvoySpec.DeepCopyInto (h : Heap Status) (in_ out : Nat) : Heap Status :=
  { h with specs := upd h.specs out (h.specs in_) }

def EnvoySpec.DeepCopy (h : Heap Status) : Option Nat → Option Nat × Heap Status
  | none => (none, h)
  | some in_ =>
    let out := h.next
    let h := { h with specs := upd h.specs out default, next := h.next + 1 }
    let h := EnvoySpec.DeepCopyInto h in_ out
    (some out, h)

/-- The type `EnvoyStatus` is declared outside the two source files and is copied as a whole
(`*out = *in`), so the copy is written for any status type. -/
def EnvoyStatus.DeepCopyInto (h : Heap Status) (in_ out : Nat) : Heap Status :=
  { h with statuses := upd h.statuses out (h.statuses in_) }

def EnvoyStatus.DeepCopy (h : Heap Status) : Option Nat → Option Nat × Heap Status
  | none => (none, h)
  | some in_ =>
    let out := h.next
    let h := { h with statuses := upd h.statuses out default, next := h.next + 1 }
    let h := EnvoyStatus.DeepCopyInto h in_ out
    (some out, h)

end Mem

/-! ## Observations on the built objects -/

/-- Whether the file `path` lies under the directory `dir`: `dir` followed by a separator is
a prefix of `path`. -/
def pathUnder (path dir : String) : Bool := (dir.data ++ ['/']).isPrefixOf path.data

/-- The mount path at which container `c` mounts the volume named `vol`, if it mounts it. -/
def mountPathOf (c : Container) (vol : String) : Option String :=
  (c.VolumeMounts.find? (fun m => m.Name == vol)).map (fun m => m.MountPath)

/-- The command-line argument that follows the first occurrence of `flag`. -/
def argAfter (flag : String) : List String → Option String
  | a :: b :: rest => if a == flag then some b else argAfter flag (b :: rest)
  | _ => none

/-- Label-selector matching of Kubernetes for `MatchLabels`: every pair of the selector is a
label of the pod. -/
def selectorMatches (sel : LabelSelector) (podLabels : List (String × String)) : Bool :=
  sel.MatchLabels.all (fun kv => podLabels.lookup kv.1 == some kv.2)

/-- Modelled from the spec: the field paths the Kubernetes downward API supports for
environment variables, as the claim lists them (Kubernetes compares them byte for byte). -/
def supportedEnvFieldPaths : List String :=
  ["metadata.name", "metadata.namespace", "metadata.uid", "spec.nodeName",
   "spec.serviceAccountName", "status.hostIP", "status.podIP"]

/-! ## Concrete inputs -/

namespace Fixture

/-- A small interpolator over `String` errors: the template `bad` fails, a template that is
the name of a downward-API field records that field, any other template records nothing. -/
def interpolate (tmpl : String) (w : NeededDownwardAPI) :
    Except String (String × NeededDownwardAPI) :=
  if tmpl = "bad" then .error "template: unexpected token"
  else if tmpl = "PodName" then .ok ("p", { w with IsPodName := true })
  else if tmpl = "PodNamespace" then .ok ("ns", { w with IsPodNamespace := true })
  else if tmpl = "PodIp" then .ok ("10.0.0.1", { w with IsPodIp := true })
  else if tmpl = "PodUID" then .ok ("u-1", { w with IsPodUID := true })
  else if tmpl = "PodLabels" then .ok ("l", { w with IsPodLabels := true })
  else if tmpl = "PodAnnotations" then .ok ("a", { w with IsPodAnnotations := true })
  else .ok (tmpl, w)

/-- No field referenced yet. -/
def noFlags : NeededDownwardAPI :=
  { IsPodName := false, IsPodNamespace := false, IsPodIp := false, IsPodSvcAccount := false,
    IsPodUID := false, IsNodeName := false, IsNodeIp := false, IsPodLabels := false,
    IsPodAnnotations := false }

/-- Dependencies whose `action.Create` answers every object with `answer`. -/
def deps (answer : Option String) : Deps String :=
  { TestNeededDownwardAPI := noFlags
    InterpolateString := interpolate
    Create := fun _ => answer
    IsAlreadyExists := fun err => err == "already exists"
    EnvoyTLSVolPath := "/etc/envoy/tls/"
    SchemeGroupVersion := "envoy.solo.io/v1alpha1"
    EnvoyServiceKind := "Envoy" }

/-- An `Envoy` named `name` with the two templates and the TLS secret name given. -/
def envoy (name nodeId clusterId tls : String) : Envoy Unit :=
  { TypeMeta := { Kind := "Envoy", APIVersion := "envoy.solo.io/v1alpha1" }
    ObjectMeta := { Name := name, Namespace := "default", UID := "uid-1", Labels := [],
                    OwnerReferences := [] }
    Spec := { NodeIdTemplate := nodeId, ClusterIdTemplate := clusterId, TLSSecretName := tls,
              AdminPort := 19000, Image := "envoyproxy/envoy:v1.6.0", ImageCommand := [],
              Deployment := { Replicas := 2 } }
    Status := () }

/-- The first object a run with the fixture dependencies hands to `action.Create`. -/
def deployment (e : Envoy Unit) : Deployment :=
  (deployEnvoy (deps none) e).created.headD default

/-- A memory with an `EnvoyList` at address 0 whose two items lie in the array at address 1, the
backing array of a `[]string` at address 2, and an `EnvoySpec` at address 3 whose
`ImageCommand` is that slice; the addresses from 4 on are free. -/
def heap : Mem.Heap Unit :=
  { strings := fun a => if a = 2 then ["envoy", "-l", "debug"] else []
    envoys := fun a =>
      if a = 1 then
        [{ TypeMeta := { Kind := "Envoy", APIVersion := "envoy.solo.io/v1alpha1" }
           ObjectMeta := { Name := "front", Namespace := "default", UID := "uid-1", Labels := [],
                           OwnerReferences := [] }
           Spec := { (default : Mem.EnvoySpec) with
                     Image := "envoyproxy/envoy:v1.6.0"
                     ImageCommand := { data := some (2, 0), len := 3, cap := 3 } }
           Status := () },
         { TypeMeta := { Kind := "Envoy", APIVersion := "envoy.solo.io/v1alpha1" }
           ObjectMeta := { Name := "back", Namespace := "default", UID := "uid-2", Labels := [],
                           OwnerReferences := [] }
           Spec := { (default : Mem.EnvoySpec) with Image := "envoyproxy/envoy:v1.6.0" }
           Status := () }]
      else []
    specs := fun a =>
      if a = 3 then
        { (default : Mem.EnvoySpec) with
          Image := "envoyproxy/envoy:v1.6.0"
          ImageCommand := { data := some (2, 0), len := 3, cap := 3 } }
      else default
    statuses := fun _ => ()
    lists := fun a =>
      if a = 0 then
        { TypeMeta := { Kind := "EnvoyList", APIVersion := "envoy.solo.io/v1alpha1" }
          ListMeta := { SelfLink := "", ResourceVersion := "7", Continue := "" }
          Items := { data := some (1, 0), len := 2, cap := 2 } }
      else default
    next := 4 }

end Fixture

/-! ## Shape of the results -/

/-- The volumes `initDownward` returns when the recorded flags are `w`. -/
theorem initDownward_volumes (deps : Deps ε) (e : Envoy Status) (s1 s2 : String)
    (w1 w : NeededDownwardAPI)
    (h1 : deps.InterpolateString e.Spec.NodeIdTemplate deps.TestNeededDownwardAPI = .ok (s1, w1))
    (h2 : deps.InterpolateString e.Spec.ClusterIdTemplate w1 = .ok (s2, w)) :
    ∃ env, initDownward deps e = .ok
      (if w.IsPodAnnotations || w.IsPodLabels then [addVolumes w.IsPodLabels w.IsPodAnnotations]
        else [], env) := by
  simp only [initDownward, h1, h2]
  cases w.IsPodAnnotations <;> cases w.IsPodLabels <;> exact ⟨_, rfl⟩

/-- When either template fails to interpolate, `initDownward` returns that error. -/
theorem initDownward_error (deps : Deps ε) (e : Envoy Status) (err : ε)
    (h : deps.InterpolateString e.Spec.NodeIdTemplate deps.TestNeededDownwardAPI = .error err ∨
      ∃ s1 w1, deps.InterpolateString e.Spec.NodeIdTemplate deps.TestNeededDownwardAPI
          = .ok (s1, w1) ∧
        deps.InterpolateString e.Spec.ClusterIdTemplate w1 = .error err) :
    initDownward deps e = .error err := by
  rcases h with h1 | ⟨s1, w1, h1, h2⟩
  · simp only [initDownward, h1]
  · simp only [initDownward, h1, h2]

/-- A successful `initDownward` comes from two successful interpolations. -/
theorem initDownward_ok_inv (deps : Deps ε) (e : Envoy Status) (vols : List Volume)
    (env : List EnvVar) (h : initDownward deps e = .ok (vols, env)) :
    ∃ s1 w1 s2 w,
      deps.InterpolateString e.Spec.NodeIdTemplate deps.TestNeededDownwardAPI = .ok (s1, w1) ∧
      deps.InterpolateString e.Spec.ClusterIdTemplate w1 = .ok (s2, w) := by
  rcases h1 : deps.InterpolateString e.Spec.NodeIdTemplate deps.TestNeededDownwardAPI with
    err1 | ⟨s1, w1⟩
  · simp [initDownward, h1] at h
  · rcases h2 : deps.InterpolateString e.Spec.ClusterIdTemplate w1 with err2 | ⟨s2, w⟩
    · simp [initDownward, h1, h2] at h
    · exact ⟨s1, w1, s2, w, rfl, h2⟩

/-! ## Runs of `deployEnvoy` -/

/-- The three runs of `deployEnvoy`: a failing first template, a failing second template, and
two templates that interpolate. -/
theorem deployEnvoy_cases (deps : Deps ε) (e : Envoy Status) :
    (∀ err,
      deps.InterpolateString e.Spec.NodeIdTemplate deps.TestNeededDownwardAPI = .error err →
        (deployEnvoy deps e).err = some err ∧ (deployEnvoy deps e).created = []) ∧
    (∀ s1 w1 err,
      deps.InterpolateString e.Spec.NodeIdTemplate deps.TestNeededDownwardAPI = .ok (s1, w1) →
      deps.InterpolateString e.Spec.ClusterIdTemplate w1 = .error err →
        (deployEnvoy deps e).err = some err ∧ (deployEnvoy deps e).created = []) ∧
    (∀ s1 w1 s2 w,
      deps.InterpolateString e.Spec.NodeIdTemplate deps.TestNeededDownwardAPI = .ok (s1, w1) →
      deps.InterpolateString e.Spec.ClusterIdTemplate w1 = .ok (s2, w) →
        ∃ d, (deployEnvoy deps e).created = [d] ∧
          (deps.Create d = none → (deployEnvoy deps e).err = none) ∧
          (∀ err, deps.Create d = some err → deps.IsAlreadyExists err = true →
            (deployEnvoy deps e).err = none) ∧
          (∀ err, deps.Create d = some err → deps.IsAlreadyExists err = false →
            (deployEnvoy deps e).err = some err)) := by
  refine ⟨?_, ?_, ?_⟩
  · intro err h1
    have h := initDownward_error deps e err (Or.inl h1)
    simp only [deployEnvoy, h, and_self]
  · intro s1 w1 err h1 h2
    have h := initDownward_error deps e err (Or.inr ⟨s1, w1, h1, h2⟩)
    simp only [deployEnvoy, h, and_self]
  · intro s1 w1 s2 w h1 h2
    obtain ⟨env, h⟩ := initDownward_volumes deps e s1 s2 w1 w h1 h2
    simp only [deployEnvoy, h]
    split
    · rename_i err hc
      split
      · refine ⟨_, rfl, ?_, ?_, ?_⟩
        · intro h0; rw [h0] at hc; cases hc
        · intro err2 h0 hae
          rw [h0] at hc; cases hc
          simp_all
        · intro err2 h0 _
          rw [h0] at hc; cases hc; rfl
      · refine ⟨_, rfl, ?_, ?_, ?_⟩
        · intro _; rfl
        · intro _ _ _; rfl
        · intro err2 h0 hae
          rw [h0] at hc; cases hc
          simp_all
    · rename_i hc
      refine ⟨_, rfl, ?_, ?_, ?_⟩
      · intro _; rfl
      · intro _ _ _; rfl
      · intro err2 h0 _
        rw [h0] at hc; cases hc

/-- The errors `deployEnvoy` returns are the interpolation errors and the errors of
`action.Create` that are not already-exists. -/
theorem deployEnvoy_err_iff (deps : Deps ε) (e : Envoy Status) (err : ε) :
    (deployEnvoy deps e).err = some err ↔
      (deps.InterpolateString e.Spec.NodeIdTemplate deps.TestNeededDownwardAPI = .error err ∨
        (∃ s1 w1, deps.InterpolateString e.Spec.NodeIdTemplate deps.TestNeededDownwardAPI
            = .ok (s1, w1) ∧
          deps.InterpolateString e.Spec.ClusterIdTemplate w1 = .error err) ∨
        ∃ d, (deployEnvoy deps e).created = [d] ∧ deps.Create d = some err ∧
          deps.IsAlreadyExists err = false) := by
  have hcontract := deployEnvoy_cases deps e
  constructor
  · intro herr
    rcases hn : deps.InterpolateString e.Spec.NodeIdTemplate deps.TestNeededDownwardAPI with
      err1 | ⟨s1, w1⟩
    · obtain ⟨h, -⟩ := hcontract.1 err1 hn
      rw [h] at herr
      cases herr
      exact Or.inl rfl
    · rcases hc : deps.InterpolateString e.Spec.ClusterIdTemplate w1 with err2 | ⟨s2, w⟩
      · obtain ⟨h, -⟩ := hcontract.2.1 s1 w1 err2 hn hc
        rw [h] at herr
        cases herr
        exact Or.inr (Or.inl ⟨s1, w1, rfl, hc⟩)
      · obtain ⟨d, hd, hnone, hae, hother⟩ := hcontract.2.2 s1 w1 s2 w hn hc
        refine Or.inr (Or.inr ⟨d, hd, ?_⟩)
        rcases hcr : deps.Create d with _ | err3
        · rw [hnone hcr] at herr; cases herr
        · cases hb : deps.IsAlreadyExists err3
          · rw [hother err3 hcr hb] at herr
            cases herr
            exact ⟨rfl, hb⟩
          · rw [hae err3 hcr hb] at herr; cases herr
  · rintro (h1 | ⟨s1, w1, h1, h2⟩ | ⟨d, hd, hcr, hb⟩)
    · exact (hcontract.1 err h1).1
    · exact (hcontract.2.1 s1 w1 err h1 h2).1
    · rcases hn : deps.InterpolateString e.Spec.NodeIdTemplate deps.TestNeededDownwardAPI with
        err1 | ⟨s1, w1⟩
      · obtain ⟨-, h⟩ := hcontract.1 err1 hn
        rw [h] at hd; cases hd
      · rcases hc : deps.InterpolateString e.Spec.ClusterIdTemplate w1 with err2 | ⟨s2, w⟩
        · obtain ⟨-, h⟩ := hcontract.2.1 s1 w1 err2 hn hc
          rw [h] at hd; cases hd
        · obtain ⟨d2, hd2, -, -, hother⟩ := hcontract.2.2 s1 w1 s2 w hn hc
          rw [hd2] at hd
          cases hd
          exact hother err hcr hb

/-! ## C1: the error contract of `deployEnvoy` -/

/-- C1. `deployEnvoy` returns an error exactly in two situations. (a) Interpolating
`NodeIdTemplate` or `ClusterIdTemplate` fails: that error is returned and `action.Create` is
not called (the call record is empty). (b) Both templates interpolate and `action.Create`
answers with an error that is not already-exists: that error is returned. When both templates
interpolate, `action.Create` is called exactly once, and `deployEnvoy` returns nil when the
call succeeds and when it fails with already-exists. -/
theorem deployEnvoy_error_contract (deps : Deps ε) (e : Envoy Status) :
    (∀ err, (deployEnvoy deps e).err = some err ↔
      (deps.InterpolateString e.Spec.NodeIdTemplate deps.TestNeededDownwardAPI = .error err ∨
        (∃ s1 w1, deps.InterpolateString e.Spec.NodeIdTemplate deps.TestNeededDownwardAPI
            = .ok (s1, w1) ∧
          deps.InterpolateString e.Spec.ClusterIdTemplate w1 = .error err) ∨
        ∃ d, (deployEnvoy deps e).created = [d] ∧ deps.Create d = some err ∧
          deps.IsAlreadyExists err = false)) ∧
    (∀ err,
      deps.InterpolateString e.Spec.NodeIdTemplate deps.TestNeededDownwardAPI = .error err →
        (deployEnvoy deps e).err = some err ∧ (deployEnvoy deps e).created = []) ∧
    (∀ s1 w1 err,
      deps.InterpolateString e.Spec.NodeIdTemplate deps.TestNeededDownwardAPI = .ok (s1, w1) →
      deps.InterpolateString e.Spec.ClusterIdTemplate w1 = .error err →
        (deployEnvoy deps e).err = some err ∧ (deployEnvoy deps e).created = []) ∧
    (∀ s1 w1 s2 w,
      deps.InterpolateString e.Spec.NodeIdTemplate deps.TestNeededDownwardAPI = .ok (s1, w1) →
      deps.InterpolateString e.Spec.ClusterIdTemplate w1 = .ok (s2, w) →
        ∃ d, (deployEnvoy deps e).created = [d] ∧
          (deps.Create d = none → (deployEnvoy deps e).err = none) ∧
          (∀ err, deps.Create d = some err → deps.IsAlreadyExists err = true →
            (deployEnvoy deps e).err = none) ∧
          (∀ err, deps.Create d = some err → deps.IsAlreadyExists err = false →
            (deployEnvoy deps e).err = some err)) :=
  ⟨deployEnvoy_err_iff deps e, deployEnvoy_cases deps e⟩

/-- C1 at concrete inputs: a node-id template that fails (no call of `action.Create`), a
cluster-id template that fails, and an `action.Create` that answers already-exists (one call,
nil returned). -/
theorem deployEnvoy_error_contract_witness :
    ((deployEnvoy (Fixture.deps none) (Fixture.envoy "front" "bad" "PodIp" "")).err
        = some "template: unexpected token" ∧
      (deployEnvoy (Fixture.deps none) (Fixture.envoy "front" "bad" "PodIp" "")).created = []) ∧
    ((deployEnvoy (Fixture.deps none) (Fixture.envoy "front" "PodIp" "bad" "")).err
        = some "template: unexpected token" ∧
      (deployEnvoy (Fixture.deps none) (Fixture.envoy "front" "PodIp" "bad" "")).created = []) ∧
    ∃ d, (deployEnvoy (Fixture.deps (some "already exists"))
          (Fixture.envoy "front" "PodIp" "PodName" "")).created = [d] ∧
      (deployEnvoy (Fixture.deps (some "already exists"))
          (Fixture.envoy "front" "PodIp" "PodName" "")).err = none :=
  ⟨(deployEnvoy_error_contract (Fixture.deps none) (Fixture.envoy "front" "bad" "PodIp" "")).2.1
      "template: unexpected token" rfl,
    (deployEnvoy_error_contract (Fixture.deps none) (Fixture.envoy "front" "PodIp" "bad" "")).2.2.1
      "10.0.0.1" { Fixture.noFlags with IsPodIp := true } "template: unexpected token"
      rfl rfl,
    match (deployEnvoy_error_contract (Fixture.deps (some "already exists"))
        (Fixture.envoy "front" "PodIp" "PodName" "")).2.2.2
      "10.0.0.1" { Fixture.noFlags with IsPodIp := true }
      "p" { Fixture.noFlags with IsPodIp := true, IsPodName := true } rfl rfl with
    | ⟨d, hd, _, hae, _⟩ => ⟨d, hd, hae "already exists" rfl (by decide)⟩⟩

/-! ## C2, C6: the environment variables of `initDownward` -/

/-- The environment variables `initDownward` returns when the recorded flags are `w`: one
block per `if` of the source, in source order. -/
theorem initDownward_env (deps : Deps ε) (e : Envoy Status) (s1 s2 : String)
    (w1 w : NeededDownwardAPI)
    (h1 : deps.InterpolateString e.Spec.NodeIdTemplate deps.TestNeededDownwardAPI = .ok (s1, w1))
    (h2 : deps.InterpolateString e.Spec.ClusterIdTemplate w1 = .ok (s2, w)) :
    ∃ vols, initDownward deps e = .ok (vols,
      (if w.IsPodName then [addEnv "POD_NAME" "metadata.name"] else []) ++
      (if w.IsPodNamespace then [addEnv "POD_NAMESPACE" "metadata.namespace"] else []) ++
      (if w.IsPodIp then [addEnv "POD_IP" "status.podIp"] else []) ++
      (if w.IsPodSvcAccount then [addEnv "POD_SVCACCNT" "spec.serviceAccountName"] else []) ++
      (if w.IsPodNamespace then [addEnv "POD_UID" "metadata.uid"] else []) ++
      (if w.IsNodeName then [addEnv "NODE_NAME" "spec.nodeName"] else []) ++
      (if w.IsNodeIp then [addEnv "NODE_IP" "status.hostIP"] else [])) := by
  simp only [initDownward, h1, h2]
  cases w.IsPodName <;> cases w.IsPodNamespace <;> cases w.IsPodIp <;>
    cases w.IsPodSvcAccount <;> cases w.IsNodeName <;> cases w.IsNodeIp <;> exact ⟨_, rfl⟩

/-- C2 at two inputs. A node-id template that references the pod namespace and nothing else
(the pod-UID flag stays false) gets the variable `POD_UID` next to `POD_NAMESPACE`; a
template that references the pod UID and nothing else gets no variable at all. -/
theorem initDownward_pod_uid_gated_on_namespace :
    (∃ s w, Fixture.interpolate "PodNamespace" Fixture.noFlags = .ok (s, w) ∧
      w.IsPodNamespace = true ∧ w.IsPodUID = false) ∧
    initDownward (Fixture.deps none) (Fixture.envoy "front" "PodNamespace" "static" "")
      = .ok ([], [addEnv "POD_NAMESPACE" "metadata.namespace", addEnv "POD_UID" "metadata.uid"]) ∧
    (∃ s w, Fixture.interpolate "PodUID" Fixture.noFlags = .ok (s, w) ∧
      w.IsPodNamespace = false ∧ w.IsPodUID = true) ∧
    initDownward (Fixture.deps none) (Fixture.envoy "front" "PodUID" "static" "")
      = .ok ([], []) :=
  ⟨⟨_, _, rfl, rfl, rfl⟩, rfl, ⟨_, _, rfl, rfl, rfl⟩, rfl⟩

/-- C6 at one input. A template that references the pod IP gets the variable `POD_IP` with
the field path `status.podIp`, which is not one of the supported paths (`status.podIP` is). -/
theorem initDownward_pod_ip_field_path :
    initDownward (Fixture.deps none) (Fixture.envoy "front" "PodIp" "static" "")
      = .ok ([], [{ Name := "POD_IP"
                    ValueFrom := some { FieldRef := some { FieldPath := "status.podIp" } } }]) ∧
    "status.podIp" ∉ supportedEnvFieldPaths ∧ "status.podIP" ∈ supportedEnvFieldPaths :=
  ⟨rfl, by decide, by decide⟩

/-! ## C3: the downward-API volume -/

/-- C3. When the templates interpolate with recorded flags `w`, `initDownward` returns at most
one volume; a volume named `downward-api-volume` is returned exactly when `w` references pod
labels or pod annotations; and every returned volume is that downward-API volume, whose items
are the `labels` item iff labels are referenced followed by the `annotations` item iff
annotations are referenced, a list that is not empty. -/
theorem initDownward_volume_contract (deps : Deps ε) (e : Envoy Status) (s1 s2 : String)
    (w1 w : NeededDownwardAPI)
    (h1 : deps.InterpolateString e.Spec.NodeIdTemplate deps.TestNeededDownwardAPI = .ok (s1, w1))
    (h2 : deps.InterpolateString e.Spec.ClusterIdTemplate w1 = .ok (s2, w)) :
    ∃ vols env, initDownward deps e = .ok (vols, env) ∧
      vols.length ≤ 1 ∧
      ((∃ v ∈ vols, v.Name = "downward-api-volume") ↔
        (w.IsPodLabels = true ∨ w.IsPodAnnotations = true)) ∧
      ∀ v ∈ vols, v.Name = "downward-api-volume" ∧
        ∃ items, v.VolumeSource = { DownwardAPI := some { Items := items } } ∧
          items =
            (if w.IsPodLabels then
                [{ Path := "labels", FieldRef := some { FieldPath := "metadata.labels" } }]
              else []) ++
            (if w.IsPodAnnotations then
                [{ Path := "annotations", FieldRef := some { FieldPath := "metadata.annotations" } }]
              else []) ∧
          items ≠ [] := by
  obtain ⟨env, h⟩ := initDownward_volumes deps e s1 s2 w1 w h1 h2
  refine ⟨_, env, h, ?_⟩
  cases w.IsPodLabels <;> cases w.IsPodAnnotations <;> simp [addVolumes, downwardVolName]

/-- C3 at a concrete input: the node-id template references pod labels, the cluster-id
template pod annotations. -/
theorem initDownward_volume_contract_witness :
    ∃ vols env,
      initDownward (Fixture.deps none) (Fixture.envoy "front" "PodLabels" "PodAnnotations" "")
        = .ok (vols, env) ∧
      vols.length ≤ 1 ∧
      ((∃ v ∈ vols, v.Name = "downward-api-volume") ↔ (true = true ∨ true = true)) ∧
      ∀ v ∈ vols, v.Name = "downward-api-volume" ∧
        ∃ items, v.VolumeSource = { DownwardAPI := some { Items := items } } ∧
          items =
            [{ Path := "labels", FieldRef := some { FieldPath := "metadata.labels" } },
             { Path := "annotations", FieldRef := some { FieldPath := "metadata.annotations" } }] ∧
          items ≠ [] :=
  initDownward_volume_contract (Fixture.deps none)
    (Fixture.envoy "front" "PodLabels" "PodAnnotations" "") "l" "a"
    { Fixture.noFlags with IsPodLabels := true }
    { Fixture.noFlags with IsPodLabels := true, IsPodAnnotations := true } rfl rfl

/-- What `deployEnvoy` hands to `action.Create`: the parts of the Deployment, in terms of the
result of `initDownward`. -/
theorem deployEnvoy_created (deps : Deps ε) (e : Envoy Status) (d : Deployment)
    (hd : d ∈ (deployEnvoy deps e).created) :
    ∃ downvols env, initDownward deps e = .ok (downvols, env) ∧
      d.Spec.Template.Spec.Volumes =
        [{ Name := "envoy-config"
           VolumeSource :=
            { ConfigMap := some { LocalObjectReference := { Name := e.ObjectMeta.Name } } } },
         { Name := "envoy-tmp-config", VolumeSource := { EmptyDir := some {} } }] ++
        (if e.Spec.TLSSecretName ≠ "" then
          [{ Name := "tls-certs"
             VolumeSource := { Secret := some { SecretName := e.Spec.TLSSecretName } } }]
         else []) ++ downvols ∧
      d.Spec.Template.Spec.InitContainers =
        [configInitContainer e env d.Spec.Template.Spec.Volumes (downvols.length != 0)] ∧
      d.Spec.Template.Spec.Containers = [envoyContainer deps e] ∧
      d.ObjectMeta.Name = e.ObjectMeta.Name ∧
      d.ObjectMeta.Namespace = e.ObjectMeta.Namespace ∧
      d.ObjectMeta.Labels = labelsForEnvoy e ∧
      d.Spec.Selector = some { MatchLabels := labelsForEnvoy e } ∧
      d.Spec.Template.ObjectMeta.Name = e.ObjectMeta.Name ∧
      d.Spec.Template.ObjectMeta.Namespace = e.ObjectMeta.Namespace ∧
      d.Spec.Template.ObjectMeta.Labels = labelsForEnvoy e := by
  rcases h : initDownward deps e with err | ⟨downvols, env⟩
  · simp [deployEnvoy, h] at hd
  · refine ⟨downvols, env, rfl, ?_⟩
    simp only [deployEnvoy, h] at hd
    have hfin : ∀ x : Deployment, d ∈ [x] → d = x := fun x hx => List.mem_singleton.mp hx
    split at hd
    · split at hd <;>
      · have hd2 := hfin _ hd
        subst hd2
        by_cases htls : e.Spec.TLSSecretName = "" <;>
          simp [addOwnerRefToObject, htls, envoyConfigVolName, envoyConfigTmpVolName,
            envoyTLSVolName, configMapNameForEnvoy, Envoy.GetName, Envoy.GetNamespace]
    · have hd2 := hfin _ hd
      subst hd2
      by_cases htls : e.Spec.TLSSecretName = "" <;>
        simp [addOwnerRefToObject, htls, envoyConfigVolName, envoyConfigTmpVolName,
          envoyTLSVolName, configMapNameForEnvoy, Envoy.GetName, Envoy.GetNamespace]

/-- The volumes of a successful `initDownward`: none, or the one downward-API volume. -/
theorem initDownward_ok_volumes (deps : Deps ε) (e : Envoy Status) (vols : List Volume)
    (env : List EnvVar) (h : initDownward deps e = .ok (vols, env)) :
    vols = [] ∨ ∃ l a, vols = [addVolumes l a] := by
  obtain ⟨s1, w1, s2, w, h1, h2⟩ := initDownward_ok_inv deps e vols env h
  obtain ⟨env2, h3⟩ := initDownward_volumes deps e s1 s2 w1 w h1 h2
  rw [h] at h3
  have h4 := (Prod.mk.inj (Except.ok.inj h3)).1
  by_cases hb : (w.IsPodAnnotations || w.IsPodLabels) = true
  · rw [if_pos hb] at h4
    exact Or.inr ⟨_, _, h4⟩
  · rw [if_neg hb] at h4
    exact Or.inl h4

/-! ## C4: the TLS secret -/

/-- C4. In every Deployment `deployEnvoy` hands to `action.Create`, the pod has a volume named
`tls-certs` exactly when `Spec.TLSSecretName` is non-empty, every volume of that name is the
secret volume of `Spec.TLSSecretName`, the pod's only container is `envoyContainer`'s, which
mounts `tls-certs` exactly when `Spec.TLSSecretName` is non-empty and, when it is empty, has
the single mount of `envoy-tmp-config`. -/
theorem deployEnvoy_tls_secret (deps : Deps ε) (e : Envoy Status) (d : Deployment)
    (hd : d ∈ (deployEnvoy deps e).created) :
    ((∃ v ∈ d.Spec.Template.Spec.Volumes, v.Name = "tls-certs") ↔ e.Spec.TLSSecretName ≠ "") ∧
    (∀ v ∈ d.Spec.Template.Spec.Volumes, v.Name = "tls-certs" →
      v.VolumeSource = { Secret := some { SecretName := e.Spec.TLSSecretName } }) ∧
    d.Spec.Template.Spec.Containers = [envoyContainer deps e] ∧
    ((∃ m ∈ (envoyContainer deps e).VolumeMounts, m.Name = "tls-certs") ↔
      e.Spec.TLSSecretName ≠ "") ∧
    (e.Spec.TLSSecretName = "" →
      (envoyContainer deps e).VolumeMounts =
        [{ Name := "envoy-tmp-config", MountPath := "/etc/envoy" }]) := by
  obtain ⟨downvols, env, hi, hv, -, hc, -⟩ := deployEnvoy_created deps e d hd
  have hdir : filepath.Dir envoyConfigTmpPath = "/etc/envoy" := by decide
  rcases initDownward_ok_volumes deps e downvols env hi with h0 | ⟨l, a, h0⟩ <;>
    by_cases htls : e.Spec.TLSSecretName = "" <;>
    simp [hv, hc, h0, htls, envoyContainer, addVolumes, downwardVolName, envoyConfigTmpVolName,
      envoyTLSVolName, hdir]

/-- C4 at a concrete input with a TLS secret. -/
theorem deployEnvoy_tls_secret_witness :
    Fixture.deployment (Fixture.envoy "front" "PodLabels" "PodIp" "front-tls") ∈
      (deployEnvoy (Fixture.deps none)
        (Fixture.envoy "front" "PodLabels" "PodIp" "front-tls")).created ∧
    (∃ v ∈ (Fixture.deployment
        (Fixture.envoy "front" "PodLabels" "PodIp" "front-tls")).Spec.Template.Spec.Volumes,
      v.Name = "tls-certs") ∧
    ∃ m ∈ (envoyContainer (Fixture.deps none)
        (Fixture.envoy "front" "PodLabels" "PodIp" "front-tls")).VolumeMounts,
      m.Name = "tls-certs" :=
  have hd : Fixture.deployment (Fixture.envoy "front" "PodLabels" "PodIp" "front-tls") ∈
      (deployEnvoy (Fixture.deps none)
        (Fixture.envoy "front" "PodLabels" "PodIp" "front-tls")).created := by decide
  have h := deployEnvoy_tls_secret (Fixture.deps none)
    (Fixture.envoy "front" "PodLabels" "PodIp" "front-tls") _ hd
  ⟨hd, h.1.mpr (by decide), h.2.2.2.1.mpr (by decide)⟩

/-! ## C5: the transformed config leaves the ConfigMap mount -/

/-- C5. In every Deployment `deployEnvoy` hands to `action.Create` there is one init container
and one envoy container; `envoy-config` is a ConfigMap volume and `envoy-tmp-config` an emptyDir
volume of the pod; the init container's `-input` path lies under its mount path of
`envoy-config`; its `-output` path lies under its mount path of `envoy-tmp-config` and not
under the ConfigMap mount path; the envoy container mounts `envoy-tmp-config` at the same
path; and the envoy container's `-c` argument is the init container's `-output` path. -/
theorem deployEnvoy_config_paths (deps : Deps ε) (e : Envoy Status) (d : Deployment)
    (hd : d ∈ (deployEnvoy deps e).created) :
    ∃ ini envoy input output configMount tmpMount,
      d.Spec.Template.Spec.InitContainers = [ini] ∧
      d.Spec.Template.Spec.Containers = [envoy] ∧
      (∃ v ∈ d.Spec.Template.Spec.Volumes,
        v.Name = "envoy-config" ∧ v.VolumeSource.ConfigMap.isSome = true) ∧
      (∃ v ∈ d.Spec.Template.Spec.Volumes,
        v.Name = "envoy-tmp-config" ∧ v.VolumeSource.EmptyDir.isSome = true) ∧
      argAfter "-input" ini.Args = some input ∧
      argAfter "-output" ini.Args = some output ∧
      mountPathOf ini "envoy-config" = some configMount ∧
      mountPathOf ini "envoy-tmp-config" = some tmpMount ∧
      pathUnder input configMount = true ∧
      pathUnder output tmpMount = true ∧
      pathUnder output configMount = false ∧
      mountPathOf envoy "envoy-tmp-config" = some tmpMount ∧
      argAfter "-c" envoy.Args = some output ∧
      input = "/etc/tmp-envoy/envoy.json" ∧ output = "/etc/envoy/envoy.json" ∧
      configMount = "/etc/tmp-envoy" ∧ tmpMount = "/etc/envoy" := by
  obtain ⟨downvols, env, -, hv, hi, hc, -⟩ := deployEnvoy_created deps e d hd
  have hdir1 : filepath.Dir envoyConfigTmpPath = "/etc/envoy" := by decide
  have hdir2 : filepath.Dir envoyConfigPath = "/etc/tmp-envoy" := by decide
  refine ⟨_, _, "/etc/tmp-envoy/envoy.json", "/etc/envoy/envoy.json", "/etc/tmp-envoy",
    "/etc/envoy", hi, hc, ?_, ?_, ?_, ?_, ?_, ?_, by decide, by decide, by decide, ?_, ?_,
    rfl, rfl, rfl, rfl⟩
  · rw [hv]; simp
  · rw [hv]; simp
  · simp [configInitContainer, argAfter, envoySourceConfigFilePath]
  · simp [configInitContainer, argAfter, envoyConfigFilePath, envoySourceConfigFilePath]
  · cases (downvols.length != 0) <;>
      simp [configInitContainer, mountPathOf, envoyConfigVolName, hdir2]
  · cases (downvols.length != 0) <;>
      simp [configInitContainer, mountPathOf, envoyConfigVolName, envoyConfigTmpVolName, hdir1]
  · by_cases htls : e.Spec.TLSSecretName = "" <;>
      simp [envoyContainer, mountPathOf, envoyConfigTmpVolName, hdir1, htls]
  · simp [envoyContainer, argAfter, envoyConfigFilePath]

/-- C5 at a concrete input. -/
theorem deployEnvoy_config_paths_witness :
    Fixture.deployment (Fixture.envoy "front" "PodLabels" "PodIp" "front-tls") ∈
      (deployEnvoy (Fixture.deps none)
        (Fixture.envoy "front" "PodLabels" "PodIp" "front-tls")).created ∧
    ∃ ini envoy,
      (Fixture.deployment (Fixture.envoy "front" "PodLabels" "PodIp"
        "front-tls")).Spec.Template.Spec.InitContainers = [ini] ∧
      (Fixture.deployment (Fixture.envoy "front" "PodLabels" "PodIp"
        "front-tls")).Spec.Template.Spec.Containers = [envoy] ∧
      argAfter "-output" ini.Args = some "/etc/envoy/envoy.json" ∧
      argAfter "-c" envoy.Args = some "/etc/envoy/envoy.json" ∧
      mountPathOf ini "envoy-tmp-config" = some "/etc/envoy" ∧
      mountPathOf envoy "envoy-tmp-config" = some "/etc/envoy" :=
  have hd : Fixture.deployment (Fixture.envoy "front" "PodLabels" "PodIp" "front-tls") ∈
      (deployEnvoy (Fixture.deps none)
        (Fixture.envoy "front" "PodLabels" "PodIp" "front-tls")).created := by decide
  match deployEnvoy_config_paths (Fixture.deps none)
      (Fixture.envoy "front" "PodLabels" "PodIp" "front-tls") _ hd with
  | ⟨ini, envoy, _, output, _, tmpMount, hi, hc, _, _, _, ho, _, ht, _, _, _, hte, hce, _, hout,
      _, htmp⟩ =>
    ⟨hd, ini, envoy, hi, hc, hout ▸ ho, hout ▸ hce, htmp ▸ ht, htmp ▸ hte⟩

/-! ## C8: every mount names a volume of the pod -/

/-- C8. In every Deployment `deployEnvoy` hands to `action.Create`, each volume mount of the
init container and of the envoy container names a volume of the pod template's `Volumes`, and
the (single) init container mounts `downward-api-volume` exactly when a volume of that name
is in `Volumes`. -/
theorem deployEnvoy_mounts_have_volumes (deps : Deps ε) (e : Envoy Status) (d : Deployment)
    (hd : d ∈ (deployEnvoy deps e).created) :
    (∀ c ∈ d.Spec.Template.Spec.InitContainers ++ d.Spec.Template.Spec.Containers,
      ∀ m ∈ c.VolumeMounts, ∃ v ∈ d.Spec.Template.Spec.Volumes, v.Name = m.Name) ∧
    ∃ ini, d.Spec.Template.Spec.InitContainers = [ini] ∧
      ((∃ m ∈ ini.VolumeMounts, m.Name = "downward-api-volume") ↔
        ∃ v ∈ d.Spec.Template.Spec.Volumes, v.Name = "downward-api-volume") := by
  obtain ⟨downvols, env, hi, hv, hini, hc, -⟩ := deployEnvoy_created deps e d hd
  refine ⟨?_, _, hini, ?_⟩
  · rw [hini, hc]
    rcases initDownward_ok_volumes deps e downvols env hi with h0 | ⟨l, a, h0⟩ <;>
      by_cases htls : e.Spec.TLSSecretName = "" <;>
      simp [hv, h0, htls, envoyContainer, configInitContainer, addVolumes, downwardVolName,
        envoyConfigTmpVolName, envoyConfigVolName, envoyTLSVolName]
  · rcases initDownward_ok_volumes deps e downvols env hi with h0 | ⟨l, a, h0⟩ <;>
      by_cases htls : e.Spec.TLSSecretName = "" <;>
      simp [hv, h0, htls, configInitContainer, addVolumes, downwardVolName,
        envoyConfigTmpVolName, envoyConfigVolName]

/-- C8 at a concrete input whose templates reference pod labels. -/
theorem deployEnvoy_mounts_have_volumes_witness :
    Fixture.deployment (Fixture.envoy "front" "PodLabels" "PodIp" "front-tls") ∈
      (deployEnvoy (Fixture.deps none)
        (Fixture.envoy "front" "PodLabels" "PodIp" "front-tls")).created ∧
    ∀ c ∈ (Fixture.deployment (Fixture.envoy "front" "PodLabels" "PodIp"
          "front-tls")).Spec.Template.Spec.InitContainers ++
        (Fixture.deployment (Fixture.envoy "front" "PodLabels" "PodIp"
          "front-tls")).Spec.Template.Spec.Containers,
      ∀ m ∈ c.VolumeMounts,
        ∃ v ∈ (Fixture.deployment (Fixture.envoy "front" "PodLabels" "PodIp"
          "front-tls")).Spec.Template.Spec.Volumes, v.Name = m.Name :=
  have hd : Fixture.deployment (Fixture.envoy "front" "PodLabels" "PodIp" "front-tls") ∈
      (deployEnvoy (Fixture.deps none)
        (Fixture.envoy "front" "PodLabels" "PodIp" "front-tls")).created := by decide
  ⟨hd, (deployEnvoy_mounts_have_volumes (Fixture.deps none)
    (Fixture.envoy "front" "PodLabels" "PodIp" "front-tls") _ hd).1⟩

/-! ## C9: the volumes of the pod, by name -/

/-- C9. When the templates interpolate with recorded flags `w`, the Deployment handed to
`action.Create` has the volumes named, in order, `envoy-config`, `envoy-tmp-config`, then
`tls-certs` if a TLS secret is set, then `downward-api-volume` if `w` references pod labels or
pod annotations; these names are pairwise distinct. -/
theorem deployEnvoy_volume_names (deps : Deps ε) (e : Envoy Status) (s1 s2 : String)
    (w1 w : NeededDownwardAPI)
    (h1 : deps.InterpolateString e.Spec.NodeIdTemplate deps.TestNeededDownwardAPI = .ok (s1, w1))
    (h2 : deps.InterpolateString e.Spec.ClusterIdTemplate w1 = .ok (s2, w)) :
    ∃ d, (deployEnvoy deps e).created = [d] ∧
      d.Spec.Template.Spec.Volumes.map (fun v => v.Name) =
        ["envoy-config", "envoy-tmp-config"] ++
        (if e.Spec.TLSSecretName ≠ "" then ["tls-certs"] else []) ++
        (if w.IsPodLabels = true ∨ w.IsPodAnnotations = true then ["downward-api-volume"]
          else []) ∧
      (d.Spec.Template.Spec.Volumes.map (fun v => v.Name)).Nodup := by
  obtain ⟨d, hd, -⟩ := (deployEnvoy_cases deps e).2.2 s1 w1 s2 w h1 h2
  have hmem : d ∈ (deployEnvoy deps e).created := by rw [hd]; exact List.mem_singleton.mpr rfl
  obtain ⟨downvols, env, hi, hv, -⟩ := deployEnvoy_created deps e d hmem
  obtain ⟨env2, hi2⟩ := initDownward_volumes deps e s1 s2 w1 w h1 h2
  rw [hi] at hi2
  have h0 := (Prod.mk.inj (Except.ok.inj hi2)).1
  refine ⟨d, hd, ?_⟩
  rw [hv, h0]
  by_cases htls : e.Spec.TLSSecretName = "" <;> cases w.IsPodLabels <;>
    cases w.IsPodAnnotations <;> simp [htls, addVolumes, downwardVolName]

/-- C9 at a concrete input with a TLS secret and a reference to pod labels. -/
theorem deployEnvoy_volume_names_witness :
    ∃ d, (deployEnvoy (Fixture.deps none)
        (Fixture.envoy "front" "PodLabels" "PodIp" "front-tls")).created = [d] ∧
      d.Spec.Template.Spec.Volumes.map (fun v => v.Name) =
        ["envoy-config", "envoy-tmp-config", "tls-certs", "downward-api-volume"] ∧
      (d.Spec.Template.Spec.Volumes.map (fun v => v.Name)).Nodup :=
  deployEnvoy_volume_names (Fixture.deps none)
    (Fixture.envoy "front" "PodLabels" "PodIp" "front-tls") "l" "10.0.0.1"
    { Fixture.noFlags with IsPodLabels := true }
    { Fixture.noFlags with IsPodLabels := true, IsPodIp := true } rfl rfl

/-! ## C10: the Deployment selects its own pods -/

/-- Two selectors that pin the label `envoy_cluster` to different values match no common pod. -/
theorem selectorMatches_disjoint (n1 n2 : String) (hne : n1 ≠ n2)
    (podLabels : List (String × String)) :
    ¬ (selectorMatches { MatchLabels := [("app", "envoy"), ("envoy_cluster", n1)] } podLabels
          = true ∧
        selectorMatches { MatchLabels := [("app", "envoy"), ("envoy_cluster", n2)] } podLabels
          = true) := by
  simp only [selectorMatches, List.all_cons, List.all_nil, Bool.and_true, Bool.and_eq_true,
    beq_iff_eq]
  rintro ⟨⟨-, h1⟩, -, h2⟩
  rw [h1] at h2
  exact hne (Option.some.inj h2)

/-- C10. For Deployments handed to `action.Create` for two `Envoy` resources: the selector's
`MatchLabels`, the pod template's labels and the Deployment's labels all are the map with
`app` = `envoy` and `envoy_cluster` = the Envoy's name; the Deployment and the pod template
carry the Envoy's name and namespace; the selector matches the labels of its own pod template;
and when the two Envoys have different names, no pod's labels are matched by both selectors. -/
theorem deployEnvoy_selects_own_pods (deps1 deps2 : Deps ε) (e1 e2 : Envoy Status)
    (d1 d2 : Deployment) (hd1 : d1 ∈ (deployEnvoy deps1 e1).created)
    (hd2 : d2 ∈ (deployEnvoy deps2 e2).created) :
    ∃ sel1 sel2, d1.Spec.Selector = some sel1 ∧ d2.Spec.Selector = some sel2 ∧
      sel1.MatchLabels = [("app", "envoy"), ("envoy_cluster", e1.ObjectMeta.Name)] ∧
      d1.Spec.Template.ObjectMeta.Labels
        = [("app", "envoy"), ("envoy_cluster", e1.ObjectMeta.Name)] ∧
      d1.ObjectMeta.Labels = [("app", "envoy"), ("envoy_cluster", e1.ObjectMeta.Name)] ∧
      d1.ObjectMeta.Name = e1.ObjectMeta.Name ∧
      d1.ObjectMeta.Namespace = e1.ObjectMeta.Namespace ∧
      d1.Spec.Template.ObjectMeta.Name = e1.ObjectMeta.Name ∧
      d1.Spec.Template.ObjectMeta.Namespace = e1.ObjectMeta.Namespace ∧
      selectorMatches sel1 d1.Spec.Template.ObjectMeta.Labels = true ∧
      (e1.ObjectMeta.Name ≠ e2.ObjectMeta.Name →
        ∀ podLabels, ¬ (selectorMatches sel1 podLabels = true ∧
          selectorMatches sel2 podLabels = true)) := by
  obtain ⟨-, -, -, -, -, -, hn, hns, hl, hs, htn, htns, htl⟩ :=
    deployEnvoy_created deps1 e1 d1 hd1
  obtain ⟨-, -, -, -, -, -, -, -, -, hs2, -⟩ := deployEnvoy_created deps2 e2 d2 hd2
  refine ⟨_, _, hs, hs2, rfl, htl, hl, hn, hns, htn, htns, ?_, ?_⟩
  · rw [htl]
    simp [selectorMatches, labelsForEnvoy, List.lookup]
  · intro hne podLabels
    exact selectorMatches_disjoint _ _ hne podLabels

/-- C10 at two concrete Envoys, `front` and `back`. -/
theorem deployEnvoy_selects_own_pods_witness :
    Fixture.deployment (Fixture.envoy "front" "PodLabels" "PodIp" "front-tls") ∈
      (deployEnvoy (Fixture.deps none)
        (Fixture.envoy "front" "PodLabels" "PodIp" "front-tls")).created ∧
    Fixture.deployment (Fixture.envoy "back" "static" "PodIp" "") ∈
      (deployEnvoy (Fixture.deps none) (Fixture.envoy "back" "static" "PodIp" "")).created ∧
    ∃ sel1 sel2,
      (Fixture.deployment (Fixture.envoy "front" "PodLabels" "PodIp" "front-tls")).Spec.Selector
        = some sel1 ∧
      (Fixture.deployment (Fixture.envoy "back" "static" "PodIp" "")).Spec.Selector
        = some sel2 ∧
      sel1.MatchLabels = [("app", "envoy"), ("envoy_cluster", "front")] ∧
      ∀ podLabels, ¬ (selectorMatches sel1 podLabels = true ∧
        selectorMatches sel2 podLabels = true) :=
  have hd1 : Fixture.deployment (Fixture.envoy "front" "PodLabels" "PodIp" "front-tls") ∈
      (deployEnvoy (Fixture.deps none)
        (Fixture.envoy "front" "PodLabels" "PodIp" "front-tls")).created := by decide
  have hd2 : Fixture.deployment (Fixture.envoy "back" "static" "PodIp" "") ∈
      (deployEnvoy (Fixture.deps none) (Fixture.envoy "back" "static" "PodIp" "")).created := by
    decide
  match deployEnvoy_selects_own_pods (Fixture.deps none) (Fixture.deps none)
      (Fixture.envoy "front" "PodLabels" "PodIp" "front-tls")
      (Fixture.envoy "back" "static" "PodIp" "") _ _ hd1 hd2 with
  | ⟨sel1, sel2, hs1, hs2, hm, _, _, _, _, _, _, _, hdis⟩ =>
    ⟨hd1, hd2, sel1, sel2, hs1, hs2, hm, hdis (by decide)⟩

/-! ## Loads and stores -/

namespace Mem

theorem upd_same {α : Type} (f : Nat → α) (a : Nat) (v : α) : upd f a v a = v := by
  simp [upd]

theorem upd_ne {α : Type} (f : Nat → α) (a x : Nat) (v : α) (h : x ≠ a) :
    upd f a v x = f x := by
  simp [upd, h]

theorem upd_upd {α : Type} (f : Nat → α) (a : Nat) (v w : α) :
    upd (upd f a v) a w = upd f a w := by
  funext x
  by_cases hx : x = a <;> simp [upd, hx]

theorem upd_self {α : Type} (f : Nat → α) (a : Nat) : upd f a (f a) = f := by
  funext x
  by_cases hx : x = a <;> simp [upd, hx]

theorem Heap.loadEnvoy_storeEnvoy_ne [Inhabited Status] (h : Heap Status) (p q : Nat × Nat) (v : Envoy Status)
    (hne : p.1 ≠ q.1) : (h.storeEnvoy q v).loadEnvoy p = h.loadEnvoy p := by
  simp [Heap.loadEnvoy, Heap.storeEnvoy, upd, hne]

theorem Heap.loadEnvoy_storeEnvoy_same [Inhabited Status] (h : Heap Status) (q : Nat × Nat) (v : Envoy Status)
    (hlt : q.2 < (h.envoys q.1).length) : (h.storeEnvoy q v).loadEnvoy q = v := by
  simp [Heap.loadEnvoy, Heap.storeEnvoy, upd, List.getD_eq_getElem?_getD, hlt]

theorem Heap.storeEnvoy_storeEnvoy (h : Heap Status) (q : Nat × Nat) (v w : Envoy Status) :
    (h.storeEnvoy q v).storeEnvoy q w = h.storeEnvoy q w := by
  simp only [Heap.storeEnvoy, upd_same, upd_upd, List.set_set]

theorem Heap.storeEnvoy_of_le (h : Heap Status) (q : Nat × Nat) (v : Envoy Status)
    (hle : (h.envoys q.1).length ≤ q.2) : h.storeEnvoy q v = h := by
  simp only [Heap.storeEnvoy, List.set_eq_of_length_le hle, upd_self]

/-- The effect of `Envoy.DeepCopyInto` when `in` and `out` lie in different arrays: one store
to `out`, of the fields of `in` with the `ObjectMeta` written by `ObjectMeta.DeepCopyInto`. -/
theorem Envoy.DeepCopyInto_eq [Inhabited Status] (metaCopy : MetaCopy) (h : Heap Status) (in_ out : Nat × Nat)
    (hne : in_.1 ≠ out.1) :
    Envoy.DeepCopyInto metaCopy h in_ out =
      h.storeEnvoy out
        { TypeMeta := (h.loadEnvoy in_).TypeMeta
          ObjectMeta := metaCopy (h.loadEnvoy in_).ObjectMeta
          Spec := (h.loadEnvoy in_).Spec
          Status := (h.loadEnvoy in_).Status } := by
  by_cases hlt : out.2 < (h.envoys out.1).length
  · have hlen : ∀ v, out.2 < ((h.storeEnvoy out v).envoys out.1).length := by
      intro v
      simp [Heap.storeEnvoy, upd, hlt]
    simp only [Envoy.DeepCopyInto, Heap.storeEnvoy_storeEnvoy, Heap.loadEnvoy_storeEnvoy_ne _ _ _ _ hne,
      Heap.loadEnvoy_storeEnvoy_same _ _ _ hlt]
  · have hle := Nat.le_of_not_lt hlt
    simp only [Envoy.DeepCopyInto, Heap.storeEnvoy_of_le _ _ _ hle]

/-- The loop of `EnvoyList.DeepCopyInto` run over the indices below `k`, when the source slice
starts at `s` and the destination slice at the start of the array `arr`, a different array:
only the array `arr` changes; it keeps its length, its elements below `k` are the copies of
the source elements at the same index, the others are untouched. -/
theorem EnvoyList.copyLoop [Inhabited Status] (metaCopy : MetaCopy) (g : Heap Status)
    (in_ out : Nat) (s : Nat × Nat) (arr : Nat)
    (hin : (g.lists in_).Items.data = some s) (hout : (g.lists out).Items.data = some (arr, 0))
    (hne : s.1 ≠ arr) (k : Nat) :
    ∃ A, (List.range k).foldl
        (fun h i =>
          match (h.lists in_).Items.data, (h.lists out).Items.data with
          | some s, some d => Envoy.DeepCopyInto metaCopy h (s.1, s.2 + i) (d.1, d.2 + i)
          | _, _ => h) g = { g with envoys := upd g.envoys arr A } ∧
      A.length = (g.envoys arr).length ∧
      ∀ i, A[i]? =
        if i < k ∧ i < (g.envoys arr).length then
          some { TypeMeta := (g.loadEnvoy (s.1, s.2 + i)).TypeMeta
                 ObjectMeta := metaCopy (g.loadEnvoy (s.1, s.2 + i)).ObjectMeta
                 Spec := (g.loadEnvoy (s.1, s.2 + i)).Spec
                 Status := (g.loadEnvoy (s.1, s.2 + i)).Status }
        else (g.envoys arr)[i]? := by
  induction k with
  | zero =>
    refine ⟨g.envoys arr, ?_, rfl, ?_⟩
    · simp only [List.range_zero, List.foldl_nil, upd_self]
    · intro i
      simp
  | succ k ih =>
    obtain ⟨A, hfold, hlen, hget⟩ := ih
    have hload : ∀ j, ({ g with envoys := upd g.envoys arr A } : Heap Status).loadEnvoy (s.1, j)
        = g.loadEnvoy (s.1, j) := by
      intro j
      simp [Heap.loadEnvoy, upd, hne]
    refine ⟨A.set k
      { TypeMeta := (g.loadEnvoy (s.1, s.2 + k)).TypeMeta
        ObjectMeta := metaCopy (g.loadEnvoy (s.1, s.2 + k)).ObjectMeta
        Spec := (g.loadEnvoy (s.1, s.2 + k)).Spec
        Status := (g.loadEnvoy (s.1, s.2 + k)).Status }, ?_, ?_, ?_⟩
    · rw [List.range_succ, List.foldl_append, hfold]
      simp only [List.foldl_cons, List.foldl_nil, hin, hout]
      rw [Envoy.DeepCopyInto_eq metaCopy _ _ _ hne, hload]
      simp only [Heap.storeEnvoy, upd_same, upd_upd, Nat.zero_add]
    · rw [List.length_set, hlen]
    · intro i
      rw [List.getElem?_set, hget i, hlen]
      by_cases hki : k = i
      · subst hki
        by_cases hlt : k < (g.envoys arr).length
        · simp [hlt]
        · have : (g.envoys arr)[k]? = none := List.getElem?_eq_none (Nat.le_of_not_lt hlt)
          simp [hlt, this]
      · have h1 : (i < k + 1 ∧ i < (g.envoys arr).length) ↔ (i < k ∧ i < (g.envoys arr).length) := by
          omega
        simp only [hki, if_false, h1]

/-- The value `Envoy.DeepCopy` stores in the object it allocates. -/
theorem Envoy.DeepCopy_some [Inhabited Status] (metaCopy : MetaCopy) (h : Heap Status)
    (p : Nat × Nat) (hp : p.1 < h.next) :
    (Envoy.DeepCopy metaCopy h (some p)).1 = some (h.next, 0) ∧
    (Envoy.DeepCopy metaCopy h (some p)).2.loadEnvoy (h.next, 0) =
      { TypeMeta := (h.loadEnvoy p).TypeMeta
        ObjectMeta := metaCopy (h.loadEnvoy p).ObjectMeta
        Spec := (h.loadEnvoy p).Spec
        Status := (h.loadEnvoy p).Status } := by
  have hne : p.1 ≠ h.next := Nat.ne_of_lt hp
  refine ⟨rfl, ?_⟩
  simp only [Envoy.DeepCopy]
  rw [Envoy.DeepCopyInto_eq metaCopy _ _ _ hne, Heap.loadEnvoy_storeEnvoy_same]
  · simp [Heap.loadEnvoy, upd, hne]
  · simp [upd]

/-- The run of `EnvoyList.DeepCopy` on a receiver with nil `Items`. -/
theorem EnvoyList.DeepCopy_nil_items [Inhabited Status] (metaCopy : MetaCopy) (h : Heap Status)
    (p : Nat) (hp : p < h.next) (hnil : (h.lists p).Items.data = none) :
    EnvoyList.DeepCopy metaCopy h (some p) =
      (some h.next, { h with lists := upd h.lists h.next (h.lists p), next := h.next + 1 }) := by
  have hne : p ≠ h.next := Nat.ne_of_lt hp
  simp only [EnvoyList.DeepCopy, EnvoyList.DeepCopyInto, upd_same, upd_upd, upd_ne _ _ _ _ hne,
    hnil, Option.isSome_none, Bool.false_eq_true, if_false]

/-- The run of `EnvoyList.DeepCopy` on a receiver with non-nil `Items`: a new list object at
`h.next`, a new array at `h.next + 1`. -/
theorem EnvoyList.DeepCopy_items [Inhabited Status] (metaCopy : MetaCopy) (h : Heap Status)
    (p : Nat) (hp : p < h.next) (s : Nat × Nat) (hs : (h.lists p).Items.data = some s)
    (hs1 : s.1 < h.next) :
    ∃ A, EnvoyList.DeepCopy metaCopy h (some p) =
        (some h.next,
          { h with
            lists := upd h.lists h.next
              { TypeMeta := (h.lists p).TypeMeta
                ListMeta := (h.lists p).ListMeta
                Items := { data := some (h.next + 1, 0), len := (h.lists p).Items.len,
                           cap := (h.lists p).Items.len } }
            envoys := upd h.envoys (h.next + 1) A
            next := h.next + 1 + 1 }) ∧
      A.length = (h.lists p).Items.len ∧
      ∀ i, i < (h.lists p).Items.len → A[i]? = some
        { TypeMeta := (h.loadEnvoy (s.1, s.2 + i)).TypeMeta
          ObjectMeta := metaCopy (h.loadEnvoy (s.1, s.2 + i)).ObjectMeta
          Spec := (h.loadEnvoy (s.1, s.2 + i)).Spec
          Status := (h.loadEnvoy (s.1, s.2 + i)).Status } := by
  have hne : p ≠ h.next := Nat.ne_of_lt hp
  have hne1 : s.1 ≠ h.next + 1 := by omega
  have hne2 : p ≠ h.next + 1 := by omega
  obtain ⟨A, hfold, hlen, hget⟩ := EnvoyList.copyLoop metaCopy
    ({ h with
        lists := upd h.lists h.next
          { TypeMeta := (h.lists p).TypeMeta
            ListMeta := (h.lists p).ListMeta
            Items := { data := some (h.next + 1, 0), len := (h.lists p).Items.len,
                       cap := (h.lists p).Items.len } }
        envoys := upd h.envoys (h.next + 1) (List.replicate (h.lists p).Items.len default)
        next := h.next + 1 + 1 } : Heap Status)
    p h.next s (h.next + 1) (by simp only [upd_ne _ _ _ _ hne, hs]) (by simp only [upd_same])
    hne1 (h.lists p).Items.len
  refine ⟨A, ?_, ?_, ?_⟩
  · simp only [EnvoyList.DeepCopy, EnvoyList.DeepCopyInto, upd_same, upd_upd,
      upd_ne _ _ _ _ hne, hs, Option.isSome_some, if_true]
    rw [hfold]
    simp only [upd_upd]
  · simpa [upd_same] using hlen
  · intro i hi
    rw [hget i]
    simp [upd_same, hi, Heap.loadEnvoy, upd, hne1]

end Mem

/-! ## C7: the generated deep copies -/

/-- The copy `EnvoySpec.DeepCopy` makes is shallow in `ImageCommand`: the slice header is
copied, so the copy and the receiver share the backing array. On the fixture memory, after
`c := s.DeepCopy()` and `c.ImageCommand[0] = "X"`, the receiver at address 3 reads
`X`, `-l`, `debug`. -/
theorem EnvoySpec_DeepCopy_shares_ImageCommand :
    (Mem.EnvoySpec.DeepCopy Fixture.heap (some 3)).1 = some 4 ∧
    ((Mem.EnvoySpec.DeepCopy Fixture.heap (some 3)).2.specs 4).ImageCommand.data = some (2, 0) ∧
    (Fixture.heap.specs 3).ImageCommand.data = some (2, 0) ∧
    Fixture.heap.loadStrings (Fixture.heap.specs 3).ImageCommand
      = some ["envoy", "-l", "debug"] ∧
    (((Mem.EnvoySpec.DeepCopy Fixture.heap (some 3)).2.storeString
        ((Mem.EnvoySpec.DeepCopy Fixture.heap (some 3)).2.specs 4).ImageCommand 0 "X").loadStrings
      (Fixture.heap.specs 3).ImageCommand) = some ["X", "-l", "debug"] := by
  refine ⟨rfl, rfl, rfl, ?_, ?_⟩ <;> decide

/-- C7. Over a memory `h` whose addresses below `h.next` are the allocated ones: `DeepCopy` of
a nil `EnvoySpec`, `EnvoyStatus` or `EnvoyList` is nil and leaves the memory as it is.
`DeepCopy` of a non-nil `EnvoySpec` or `EnvoyStatus` returns a new object (an address that was
not allocated before) that holds a value equal to the receiver's, and changes nothing that was
allocated. `DeepCopy` of a non-nil `EnvoyList` returns a new object with the receiver's
`TypeMeta` and `ListMeta` and changes nothing that was allocated; nil `Items` stay nil; non-nil
`Items` become a slice over a new array, of the same length, whose element at each index is
the value `Envoy.DeepCopy` stores for the receiver's element at that index; and the items of
the copy equal the items of the receiver when `ObjectMeta.DeepCopyInto` writes a value equal
to its receiver. -/
theorem deepCopy_contract [Inhabited Status] (metaCopy : MetaCopy) (h : Mem.Heap Status) :
    Mem.EnvoySpec.DeepCopy h none = (none, h) ∧
    Mem.EnvoyStatus.DeepCopy h none = (none, h) ∧
    Mem.EnvoyList.DeepCopy metaCopy h none = (none, h) ∧
    (∀ p, p < h.next → ∃ q h', Mem.EnvoySpec.DeepCopy h (some p) = (some q, h') ∧
      h.next ≤ q ∧ q < h'.next ∧ h'.specs q = h.specs p ∧
      (∀ a, a < h.next → h'.specs a = h.specs a) ∧
      h'.strings = h.strings ∧ h'.envoys = h.envoys ∧ h'.statuses = h.statuses ∧
      h'.lists = h.lists) ∧
    (∀ p, p < h.next → ∃ q h', Mem.EnvoyStatus.DeepCopy h (some p) = (some q, h') ∧
      h.next ≤ q ∧ q < h'.next ∧ h'.statuses q = h.statuses p ∧
      (∀ a, a < h.next → h'.statuses a = h.statuses a) ∧
      h'.strings = h.strings ∧ h'.envoys = h.envoys ∧ h'.specs = h.specs ∧
      h'.lists = h.lists) ∧
    (∀ p, p < h.next → (∀ s, (h.lists p).Items.data = some s → s.1 < h.next) →
      ∃ q h', Mem.EnvoyList.DeepCopy metaCopy h (some p) = (some q, h') ∧
        h.next ≤ q ∧ q < h'.next ∧
        (h'.lists q).TypeMeta = (h.lists p).TypeMeta ∧
        (h'.lists q).ListMeta = (h.lists p).ListMeta ∧
        (∀ a, a < h.next → h'.lists a = h.lists a ∧ h'.envoys a = h.envoys a) ∧
        h'.strings = h.strings ∧ h'.specs = h.specs ∧ h'.statuses = h.statuses ∧
        ((h.lists p).Items.data = none → (h'.lists q).Items.data = none) ∧
        (∀ s, (h.lists p).Items.data = some s →
          ∃ arr, (h'.lists q).Items.data = some (arr, 0) ∧ h.next ≤ arr ∧ arr < h'.next ∧
            (h'.lists q).Items.len = (h.lists p).Items.len ∧
            (h'.envoys arr).length = (h.lists p).Items.len ∧
            ∀ i, i < (h.lists p).Items.len →
              h'.loadEnvoy (arr, i) =
                (Mem.Envoy.DeepCopy metaCopy h (some (s.1, s.2 + i))).2.loadEnvoy (h.next, 0)) ∧
        ((∀ m, metaCopy m = m) →
          h'.loadItems (h'.lists q).Items = h.loadItems (h.lists p).Items)) := by
  refine ⟨rfl, rfl, rfl, ?_, ?_, ?_⟩
  · intro p hp
    have hne : p ≠ h.next := Nat.ne_of_lt hp
    refine ⟨h.next, _, rfl, Nat.le_refl _, Nat.lt_succ_self _, ?_, ?_, rfl, rfl, rfl, rfl⟩
    · simp only [Mem.EnvoySpec.DeepCopyInto, Mem.upd_same, Mem.upd_ne _ _ _ _ hne]
    · intro a ha
      have hne2 : a ≠ h.next := Nat.ne_of_lt ha
      simp only [Mem.EnvoySpec.DeepCopyInto, Mem.upd_ne _ _ _ _ hne2]
  · intro p hp
    have hne : p ≠ h.next := Nat.ne_of_lt hp
    refine ⟨h.next, _, rfl, Nat.le_refl _, Nat.lt_succ_self _, ?_, ?_, rfl, rfl, rfl, rfl⟩
    · simp only [Mem.EnvoyStatus.DeepCopyInto, Mem.upd_same, Mem.upd_ne _ _ _ _ hne]
    · intro a ha
      have hne2 : a ≠ h.next := Nat.ne_of_lt ha
      simp only [Mem.EnvoyStatus.DeepCopyInto, Mem.upd_ne _ _ _ _ hne2]
  · intro p hp hvalid
    rcases hdata : (h.lists p).Items.data with _ | s
    · rw [Mem.EnvoyList.DeepCopy_nil_items metaCopy h p hp hdata]
      refine ⟨h.next, _, rfl, Nat.le_refl _, Nat.lt_succ_self _, ?_, ?_, ?_, rfl, rfl, rfl, ?_,
        ?_, ?_⟩
      · simp only [Mem.upd_same]
      · simp only [Mem.upd_same]
      · intro a ha
        have hne2 : a ≠ h.next := Nat.ne_of_lt ha
        simp only [Mem.upd_ne _ _ _ _ hne2, and_self]
      · intro _
        simp only [Mem.upd_same, hdata]
      · intro s hs
        cases hs
      · intro _
        simp only [Mem.upd_same, Mem.Heap.loadItems, hdata, Option.map_none']
    · have hs1 := hvalid s hdata
      obtain ⟨A, hcopy, hlen, hget⟩ := Mem.EnvoyList.DeepCopy_items metaCopy h p hp s hdata hs1
      rw [hcopy]
      have hload : ∀ i, i < (h.lists p).Items.len →
          (A.getD i default) =
            { TypeMeta := (h.loadEnvoy (s.1, s.2 + i)).TypeMeta
              ObjectMeta := metaCopy (h.loadEnvoy (s.1, s.2 + i)).ObjectMeta
              Spec := (h.loadEnvoy (s.1, s.2 + i)).Spec
              Status := (h.loadEnvoy (s.1, s.2 + i)).Status } := by
        intro i hi
        rw [List.getD_eq_getElem?_getD, hget i hi]
        rfl
      refine ⟨h.next, _, rfl, Nat.le_refl _, by simp only; omega, ?_, ?_, ?_, rfl, rfl, rfl,
        ?_, ?_, ?_⟩
      · simp only [Mem.upd_same]
      · simp only [Mem.upd_same]
      · intro a ha
        have hne2 : a ≠ h.next := Nat.ne_of_lt ha
        have hne3 : a ≠ h.next + 1 := by omega
        simp only [Mem.upd_ne _ _ _ _ hne2, Mem.upd_ne _ _ _ _ hne3, and_self]
      · intro hnil
        cases hnil
      · intro s2 hs2
        cases hs2
        refine ⟨h.next + 1, ?_, by omega, by simp only; omega, ?_, ?_, ?_⟩
        · simp only [Mem.upd_same]
        · simp only [Mem.upd_same]
        · simp only [Mem.upd_same, hlen]
        · intro i hi
          rw [(Mem.Envoy.DeepCopy_some metaCopy h (s.1, s.2 + i) hs1).2]
          simp only [Mem.Heap.loadEnvoy, Mem.upd_same]
          exact hload i hi
      · intro hmeta
        simp only [Mem.Heap.loadItems, Mem.upd_same, hdata, Option.map_some', Option.some.injEq]
        apply List.map_congr_left
        intro i hi
        have hi2 : i < (h.lists p).Items.len := List.mem_range.mp hi
        simp only [Mem.Heap.loadEnvoy, Mem.upd_same]
        rw [Nat.zero_add, hload i hi2, hmeta]
        rfl

/-- C7 at the fixture memory: the copy of the `EnvoySpec` at address 3 and the copy of the
`EnvoyList` at address 0 are new objects, with a value-preserving `ObjectMeta.DeepCopyInto`. -/
theorem deepCopy_contract_witness :
    (∃ q h', Mem.EnvoySpec.DeepCopy Fixture.heap (some 3) = (some q, h') ∧
      4 ≤ q ∧ h'.specs q = Fixture.heap.specs 3) ∧
    ∃ q h', Mem.EnvoyList.DeepCopy (fun m => m) Fixture.heap (some 0) = (some q, h') ∧
      4 ≤ q ∧
      h'.loadItems (h'.lists q).Items = Fixture.heap.loadItems (Fixture.heap.lists 0).Items :=
  ⟨match (deepCopy_contract (fun m => m) Fixture.heap).2.2.2.1 3 (by decide) with
    | ⟨q, h', hc, hq, _, heq, _⟩ => ⟨q, h', hc, hq, heq⟩,
   match (deepCopy_contract (fun m => m) Fixture.heap).2.2.2.2.2 0 (by decide)
      (fun s hs => by cases hs; decide) with
    | ⟨q, h', hc, hq, _, _, _, _, _, _, _, _, _, hitems⟩ => ⟨q, h', hc, hq, hitems (fun _ => rfl)⟩⟩

end EnvoyOperator
